import Mathlib

/-!
Shallow embedding of `src/app.py`, the Flask backend of the face-filter
service, together with proofs about its request handlers.

Modelling conventions:
* Machine state that a request can observe or mutate — the ephemeral files a
  request creates — is an explicit association list from path to content
  (`FS`), threaded through the handler.
* Each `subprocess.run(..., check=True, capture_output=True)` call is driven
  by an oracle value of type `ToolResult` supplied in the environment:
  `ok stdout` for exit status 0, `err stderr` for a `CalledProcessError`
  carrying the captured standard error.  Every invocation performed is
  recorded in an invocation trace.
* Temporary file names produced by `tempfile` are supplied by the environment
  (the library guarantees freshness; theorems that need it take distinctness
  hypotheses).
* Strings are modelled by Lean `String` restricted to ASCII, where Python's
  `str.isalnum` and werkzeug's `secure_filename` agree with the ASCII-level
  models below.
-/

namespace FaceFilter

/-- Outcome of one `subprocess.run(..., check=True, capture_output=True)`
call (`app.py` lines 52, 91, 120, 135): exit status 0 with captured stdout,
or a `CalledProcessError` carrying the captured stderr. -/
inductive ToolResult where
  | ok (stdout : String)
  | err (stderr : String)
deriving DecidableEq, Repr

/-- Response bodies: a JSON object (modelled as an ordered field list, the
shape `jsonify` produces) or raw video bytes. -/
inductive Body where
  | json (fields : List (String × String))
  | video (data : String)
deriving DecidableEq, Repr

/-- An HTTP response: status code, body, and headers (ordered multi-map, as
in werkzeug's `Headers`). -/
structure HttpResponse where
  status : Nat
  body : Body
  headers : List (String × String)
deriving DecidableEq, Repr

/-- werkzeug `resp.headers[k] = v`: remove every existing value for `k`,
then append the new pair. -/
def setHeader (hs : List (String × String)) (k v : String) : List (String × String) :=
  hs.filter (fun p => p.1 != k) ++ [(k, v)]

/-- Python `k in resp.headers`. -/
def hasHeader (hs : List (String × String)) (k : String) : Bool :=
  hs.any (fun p => p.1 == k)

/-- Number of values carried for header `k`. -/
def countHeader (hs : List (String × String)) (k : String) : Nat :=
  (hs.filter (fun p => p.1 == k)).length

/-- The filesystem fragment a request touches: association list from path to
file content. -/
abbrev FS := List (String × String)

def FS.empty : FS := []

/-- Create or overwrite the file at `p` with content `c`. -/
def FS.write (fs : FS) (p c : String) : FS :=
  (p, c) :: fs.filter (fun q => q.1 != p)

/-- `os.unlink p`. -/
def FS.unlink (fs : FS) (p : String) : FS :=
  fs.filter (fun q => q.1 != p)

/-- `os.path.exists p`. -/
def FS.exists (fs : FS) (p : String) : Bool :=
  fs.any (fun q => q.1 == p)

/-- `open(p, "rb").read()`, `none` when the file is absent. -/
def FS.read (fs : FS) (p : String) : Option String :=
  (fs.find? (fun q => q.1 == p)).map (fun q => q.2)

/-- `BASE_DIR` (`app.py` line 8); the resolved application directory. -/
def BASE_DIR : String := "/srv/face-filter-backend"

/-- `UPLOAD_DIR` (`app.py` line 9). -/
def UPLOAD_DIR : String := BASE_DIR ++ "/uploads"

/-- `PROCESSED_DIR` (`app.py` line 10). -/
def PROCESSED_DIR : String := BASE_DIR ++ "/processed"

/-- `MASK_PATH` (`app.py` line 11): the default mask `cat.png`. -/
def MASK_PATH : String := BASE_DIR ++ "/masks/cat.png"

/-- The single origin allowed by every CORS header in `app.py`. -/
def ALLOWED_ORIGIN : String := "https://brookswimer.github.io"

/-- `BASE_DIR / "masks" / f"{mask_name}.png"` (`app.py` line 75). -/
def maskPath (name : String) : String :=
  BASE_DIR ++ "/masks/" ++ name ++ ".png"

/-- Python `str.isalnum()` on the ASCII fragment (`app.py` line 73): true
iff the string is nonempty and every character is an ASCII letter or digit.
(On ASCII strings Python's Unicode-aware `isalnum` coincides with this.) -/
def pyIsalnum (s : String) : Bool :=
  !s.data.isEmpty && s.data.all Char.isAlphanum

/-- Which external program an invocation runs. -/
inductive ToolKind where
  | ffmpeg
  | overlayProcessor
deriving DecidableEq, Repr

/-- One external-tool invocation: the program and its argument vector. -/
structure Invocation where
  kind : ToolKind
  args : List String
deriving DecidableEq, Repr

/-- The staging `ffmpeg` command (`app.py` lines 91-99). -/
def stageCmd (input interm : String) : Invocation :=
  ⟨.ffmpeg, ["-y", "-i", input, "-c:v", "libx264", "-pix_fmt", "yuv420p",
             "-preset", "veryfast", "-movflags", "+faststart", interm]⟩

/-- The overlay-processor command (`app.py` lines 44-50 and 111-117):
`python overlay_processor.py <input> <mask> <output>`. -/
def overlayCmd (input mask output : String) : Invocation :=
  ⟨.overlayProcessor, [BASE_DIR ++ "/overlay_processor.py", input, mask, output]⟩

/-- The finalization `ffmpeg` command (`app.py` lines 135-145). -/
def finalizeCmd (input final : String) : Invocation :=
  ⟨.ffmpeg, ["-y", "-i", input, "-vf", "fps=30", "-c:v", "libx264",
             "-pix_fmt", "yuv420p", "-preset", "veryfast",
             "-movflags", "+faststart", final]⟩

/-- The parts of a `/process-inline` request the handler reads: whether the
multipart form has a `video` file, and the raw `mask` form field
(`none` when the field is absent from the form). -/
structure InlineRequest where
  hasVideo : Bool
  maskField : Option String
deriving DecidableEq, Repr

/-- Environment driving one `/process-inline` request: which mask files
exist on disk, the uploaded bytes, the four `tempfile` names generated
during the request, and the oracle outcome plus output content of each of
the three external-tool invocations. -/
structure InlineEnv where
  maskExists : String → Bool
  videoContent : String
  tmpIn : String
  tmpInterm : String
  tmpOut : String
  tmpFinal : String
  stageResult : ToolResult
  stageOut : String
  overlayResult : ToolResult
  overlayOut : String
  finalResult : ToolResult
  finalOut : String

/-- What a route handler produces: the HTTP response as built by the route
itself (before the after-request hooks), the files left on disk, and the
trace of external-tool invocations. -/
structure RouteResult where
  resp : HttpResponse
  fs : FS
  calls : List Invocation
deriving Repr

/-- `jsonify(...)` with a status code: a JSON response with no headers of
its own. -/
def jsonResponse (status : Nat) (fields : List (String × String)) : HttpResponse :=
  ⟨status, .json fields, []⟩

/-- The `/process-inline` handler (`app.py` lines 64-170), traced from the
source line by line.  Note the finalization fallback (lines 146-149):
on failure `final_mp4` is rebound to `output_path`, so the cleanup guard
on line 159 compares `output_path` with itself and the `mkstemp` file
created on line 132 is left on disk. -/
def process_inline (req : InlineRequest) (env : InlineEnv) : RouteResult :=
  if !req.hasVideo then
    ⟨jsonResponse 400 [("error", "No video field in form")], FS.empty, []⟩
  else
    let mask_name := req.maskField.getD "cat"
    if !pyIsalnum mask_name then
      ⟨jsonResponse 400 [("error", "Invalid mask name")], FS.empty, []⟩
    else
      let mask_path := maskPath mask_name
      if !env.maskExists mask_path then
        ⟨jsonResponse 400 [("error", "Mask not found")], FS.empty, []⟩
      else
        let fs := FS.write FS.empty env.tmpIn env.videoContent
        let fs := FS.write fs env.tmpInterm ""
        let calls := [stageCmd env.tmpIn env.tmpInterm]
        match env.stageResult with
        | .err e =>
          let fs := (fs.unlink env.tmpIn).unlink env.tmpInterm
          ⟨jsonResponse 500 [("error", "Failed to convert WebM"), ("details", e)], fs, calls⟩
        | .ok _ =>
          let fs := FS.write fs env.tmpInterm env.stageOut
          let fs := FS.write fs env.tmpOut ""
          let calls := calls ++ [overlayCmd env.tmpInterm mask_path env.tmpOut]
          match env.overlayResult with
          | .err e =>
            let fs := ((fs.unlink env.tmpIn).unlink env.tmpInterm).unlink env.tmpOut
            ⟨jsonResponse 500 [("error", "Processing failed"), ("details", e)], fs, calls⟩
          | .ok _ =>
            let fs := FS.write fs env.tmpOut env.overlayOut
            let fs := FS.write fs env.tmpFinal ""
            let calls := calls ++ [finalizeCmd env.tmpOut env.tmpFinal]
            let final_mp4 :=
              match env.finalResult with
              | .ok _ => env.tmpFinal
              | .err _ => env.tmpOut
            let fs :=
              match env.finalResult with
              | .ok _ => FS.write fs env.tmpFinal env.finalOut
              | .err _ => fs
            let video_bytes := (fs.read final_mp4).getD ""
            let fs := ((fs.unlink env.tmpIn).unlink env.tmpInterm).unlink env.tmpOut
            let fs :=
              if fs.exists final_mp4 && final_mp4 != env.tmpOut then
                fs.unlink final_mp4
              else fs
            let hs := setHeader [] "Content-Disposition" "inline; filename=processed.mp4"
            let hs := setHeader hs "Access-Control-Allow-Origin" ALLOWED_ORIGIN
            let hs := setHeader hs "Access-Control-Allow-Methods" "POST, GET, OPTIONS"
            let hs := setHeader hs "Access-Control-Allow-Headers" "Content-Type"
            ⟨⟨200, .video video_bytes, hs⟩, fs, calls⟩

/-- Characters kept by werkzeug's `_filename_ascii_strip_re`:
ASCII letters, digits, `_`, `.`, `-`. -/
def filenameAsciiKeep (c : Char) : Bool :=
  c.isAlphanum || c == '_' || c == '.' || c == '-'

/-- Python `str.split()` (split on runs of spaces, dropping empties), on an
explicit character list; `acc` holds the current word reversed. -/
def splitWsAux : List Char → List Char → List (List Char)
  | acc, [] => if acc.isEmpty then [] else [acc.reverse]
  | acc, c :: cs =>
    if c == ' ' then
      if acc.isEmpty then splitWsAux [] cs else acc.reverse :: splitWsAux [] cs
    else splitWsAux (c :: acc) cs

/-- Python `"_".join(words)` on character lists. -/
def joinUnderscore : List (List Char) → List Char
  | [] => []
  | [w] => w
  | w :: ws => w ++ '_' :: joinUnderscore ws

/-- Characters stripped from both ends by `.strip("._")`. -/
def isStripChar (c : Char) : Bool :=
  c == '.' || c == '_'

/-- werkzeug `secure_filename`, modelled on the ASCII fragment
(`app.py` line 35): replace the path separator by a space, join the
whitespace-split words with `_`, drop every character outside
`[A-Za-z0-9_.-]`, and strip leading/trailing `.` and `_`. -/
def secure_filename (s : String) : String :=
  let cs := s.data.map (fun c => if c == '/' then ' ' else c)
  let joined := joinUnderscore (splitWsAux [] cs)
  let kept := joined.filter filenameAsciiKeep
  ⟨((kept.dropWhile isStripChar).reverse.dropWhile isStripChar).reverse⟩

/-- `pathlib.Path(...).stem` (`app.py` line 40): the final component
without its last extension; a lone leading dot is not an extension. -/
def pathStem (s : String) : String :=
  let cs := s.data
  match cs.reverse.findIdx? (fun c => c == '.') with
  | none => s
  | some i =>
    let pos := cs.length - 1 - i
    if pos = 0 then s else ⟨cs.take pos⟩

/-- A character that can occur in `str(uuid.uuid4())`: a lowercase hex
digit or a hyphen. -/
def uuidChar (c : Char) : Bool :=
  c.isDigit || ('a' ≤ c && c ≤ 'f') || c == '-'

/-- The shape of `str(uuid.uuid4())` (`app.py` line 35): 36 characters,
hyphens exactly at positions 8, 13, 18, 23, lowercase hex elsewhere. -/
def uuidFormat (s : String) : Bool :=
  s.data.length == 36 && s.data.all uuidChar &&
  (List.range 36).all (fun i =>
    (s.data.getD i ' ' == '-') == (i == 8 || i == 13 || i == 18 || i == 23))

/-- Environment driving one `/upload` request (`app.py` lines 26-57): the
generated UUID string, the uploaded bytes, whether the form has a `video`
file, any `mask` form field the client may have sent (the handler never
reads it), and the oracle outcome of the overlay invocation. -/
structure UploadEnv where
  hasVideo : Bool
  maskField : Option String
  uuid : String
  videoContent : String
  overlayResult : ToolResult
  overlayOut : String

/-- The `/upload` handler (`app.py` lines 26-57), traced from the source.
The upload is stored durably under `UPLOAD_DIR`; on overlay success the
processed file appears under `PROCESSED_DIR` and the response carries the
reference URL. -/
def upload (env : UploadEnv) : RouteResult :=
  if !env.hasVideo then
    ⟨jsonResponse 400 [("error", "No video field in form")], FS.empty, []⟩
  else
    let in_name := secure_filename (env.uuid ++ ".webm")
    let input_path := UPLOAD_DIR ++ "/" ++ in_name
    let fs := FS.write FS.empty input_path env.videoContent
    let out_name := pathStem in_name ++ "_mask.mp4"
    let output_path := PROCESSED_DIR ++ "/" ++ out_name
    let calls := [overlayCmd input_path MASK_PATH output_path]
    match env.overlayResult with
    | .err e =>
      ⟨jsonResponse 500 [("error", "Processing failed"), ("details", e)], fs, calls⟩
    | .ok _ =>
      let fs := FS.write fs output_path env.overlayOut
      ⟨jsonResponse 200 [("processed_url", "/processed/" ++ out_name)], fs, calls⟩

/-- The `/` route (`app.py` lines 22-24). -/
def index : HttpResponse :=
  jsonResponse 200 [("status", "online"), ("message", "Face Filter API is running")]

/-- Header name of the CORS origin header. -/
def ACAO : String := "Access-Control-Allow-Origin"

/-- The OPTIONS preflight handler (`app.py` lines 172-181):
`make_default_options_response()` (a 200 with an `Allow` header) with the
three CORS headers set on it. -/
def handle_options : HttpResponse :=
  let hs := [("Allow", "OPTIONS, POST")]
  let hs := setHeader hs ACAO ALLOWED_ORIGIN
  let hs := setHeader hs "Access-Control-Allow-Methods" "POST, GET, OPTIONS"
  let hs := setHeader hs "Access-Control-Allow-Headers" "Content-Type"
  ⟨200, .json [], hs⟩

/-- The `/processed/<fname>` route (`app.py` lines 59-62):
`send_from_directory` serves the file when present, else a 404. -/
def processedRoute (found : Bool) (content : String) : HttpResponse :=
  if found then ⟨200, .video content, []⟩
  else ⟨404, .json [("error", "Not Found")], []⟩

/-- The `add_cors_headers` after-request hook (`app.py` lines 183-190):
sets the three CORS headers only when `Access-Control-Allow-Origin` is not
already present. -/
def add_cors_headers (r : HttpResponse) : HttpResponse :=
  if hasHeader r.headers ACAO then r
  else
    let hs := setHeader r.headers ACAO ALLOWED_ORIGIN
    let hs := setHeader hs "Access-Control-Allow-Headers" "Content-Type"
    let hs := setHeader hs "Access-Control-Allow-Methods" "POST, GET, OPTIONS"
    { r with headers := hs }

/-- The `flask_cors` extension's after-request handler (`app.py` line 19
registers it): it skips entirely when the response already carries
`Access-Control-Allow-Origin`; otherwise it sets the header when the
request's `Origin` matches the configured allowed origin. -/
def corsExtension (origin : Option String) (r : HttpResponse) : HttpResponse :=
  if hasHeader r.headers ACAO then r
  else
    match origin with
    | some o =>
      if o == ALLOWED_ORIGIN then { r with headers := setHeader r.headers ACAO o }
      else r
    | none => r

/-- Flask runs after-request functions in reverse registration order:
`add_cors_headers` (registered last) first, then the `flask_cors`
extension handler. -/
def afterRequestPipeline (origin : Option String) (r : HttpResponse) : HttpResponse :=
  corsExtension origin (add_cors_headers r)

/-- Values of `Access-Control-Allow-Origin` on a response. -/
def countACAO (r : HttpResponse) : Nat :=
  countHeader r.headers ACAO

/-- `p` is a plain file name directly inside directory `dir`: it is
`dir ++ "/" ++ f` for a nonempty final component `f` that contains no path
separator and is not a relative-directory token. -/
def directlyInside (dir p : String) : Prop :=
  ∃ f, p = dir ++ "/" ++ f ∧ f ≠ "" ∧ (∀ c ∈ f.data, c ≠ '/') ∧ f ≠ "." ∧ f ≠ ".."

/-- Concrete mask-directory oracle: only `cat.png` is on disk. -/
def catOnly : String → Bool := fun p => p == maskPath "cat"

/-- Concrete environment in which all three tools succeed. -/
def allOkEnv : InlineEnv :=
  { maskExists := catOnly, videoContent := "VID"
  , tmpIn := "/tmp/a.webm", tmpInterm := "/tmp/b.mp4"
  , tmpOut := "/tmp/c.mp4", tmpFinal := "/tmp/d.mp4"
  , stageResult := .ok "", stageOut := "STAGED"
  , overlayResult := .ok "", overlayOut := "MASKED"
  , finalResult := .ok "", finalOut := "FINAL" }

/-- Concrete environment in which only the finalization transcode fails. -/
def finalFailEnv : InlineEnv :=
  { allOkEnv with finalResult := .err "finalize diagnostics" }

/-- Concrete environment in which the staging transcode fails. -/
def stageFailEnv : InlineEnv :=
  { allOkEnv with stageResult := .err "staging diagnostics" }

/-- Concrete environment in which the overlay processor fails. -/
def overlayFailEnv : InlineEnv :=
  { allOkEnv with overlayResult := .err "overlay diagnostics" }

/-- A well-formed `/process-inline` request with no `mask` form field. -/
def sampleReq : InlineRequest := ⟨true, none⟩

/-- Concrete `/upload` environment with a fixed UUID and a succeeding
overlay invocation. -/
def sampleUploadEnv : UploadEnv :=
  ⟨true, none, "123e4567-e89b-42d3-a456-426614174000", "V", .ok "", "OUT"⟩

/-- Concrete `/upload` environment whose overlay invocation fails. -/
def uploadFailEnv : UploadEnv :=
  { sampleUploadEnv with overlayResult := .err "upload overlay diagnostics" }

theorem any_key_filter_ne (l : List (String × String)) (p q : String) (h : p ≠ q) :
    (l.filter (fun r => r.1 != q)).any (fun r => r.1 == p) =
      l.any (fun r => r.1 == p) := by
  induction l with
  | nil => rfl
  | cons x xs ih =>
    by_cases hxq : x.1 = q
    · have hb : (x.1 != q) = false := by simp [hxq]
      have hp : (x.1 == p) = false := by simp [hxq, Ne.symm h]
      simp only [List.filter_cons, hb, Bool.false_eq_true, if_false, List.any_cons, hp,
        Bool.false_or, ih]
    · have hb : (x.1 != q) = true := by simp [hxq]
      simp only [List.filter_cons, hb, if_true, List.any_cons, ih]

theorem any_key_filter_self (l : List (String × String)) (p : String) :
    (l.filter (fun r => r.1 != p)).any (fun r => r.1 == p) = false := by
  induction l with
  | nil => rfl
  | cons x xs ih =>
    by_cases hxp : x.1 = p
    · have hb : (x.1 != p) = false := by simp [hxp]
      simp only [List.filter_cons, hb, Bool.false_eq_true, if_false, ih]
    · have hb : (x.1 != p) = true := by simp [hxp]
      have hp : (x.1 == p) = false := by simp [hxp]
      simp only [List.filter_cons, hb, if_true, List.any_cons, hp, Bool.false_or, ih]

theorem find?_key_filter_ne (l : List (String × String)) (p q : String) (h : p ≠ q) :
    (l.filter (fun r => r.1 != q)).find? (fun r => r.1 == p) =
      l.find? (fun r => r.1 == p) := by
  induction l with
  | nil => rfl
  | cons x xs ih =>
    by_cases hxq : x.1 = q
    · have hb : (x.1 != q) = false := by simp [hxq]
      have hp : (x.1 == p) = false := by simp [hxq, Ne.symm h]
      simp only [List.filter_cons, hb, Bool.false_eq_true, if_false, List.find?_cons, hp, ih]
    · have hb : (x.1 != q) = true := by simp [hxq]
      by_cases hxp : x.1 = p
      · have hp : (x.1 == p) = true := by simp [hxp]
        simp only [List.filter_cons, hb, if_true, List.find?_cons, hp]
      · have hp : (x.1 == p) = false := by simp [hxp]
        simp only [List.filter_cons, hb, if_true, List.find?_cons, hp, ih]

theorem FS.exists_empty (p : String) : FS.empty.exists p = false := rfl

theorem FS.exists_write_self (fs : FS) (p c : String) :
    (fs.write p c).exists p = true := by
  simp [FS.write, FS.exists]

theorem FS.exists_write_ne (fs : FS) (p q c : String) (h : p ≠ q) :
    (fs.write q c).exists p = fs.exists p := by
  simp only [FS.write, FS.exists, List.any_cons]
  have h1 : ((q, c).1 == p) = false := by simp [Ne.symm h]
  rw [h1, Bool.false_or, any_key_filter_ne _ _ _ h]

theorem FS.exists_write_of (fs : FS) (p q c : String) (h : fs.exists p = true) :
    (fs.write q c).exists p = true := by
  by_cases hpq : p = q
  · subst hpq; exact fs.exists_write_self p c
  · rw [FS.exists_write_ne _ _ _ _ hpq]; exact h

theorem FS.exists_unlink_self (fs : FS) (p : String) :
    (fs.unlink p).exists p = false := by
  simp only [FS.unlink, FS.exists]
  exact any_key_filter_self fs p

theorem FS.exists_unlink_ne (fs : FS) (p q : String) (h : p ≠ q) :
    (fs.unlink q).exists p = fs.exists p := by
  simp only [FS.unlink, FS.exists]
  exact any_key_filter_ne fs p q h

theorem FS.exists_unlink_of_not (fs : FS) (p q : String) (h : fs.exists p = false) :
    (fs.unlink q).exists p = false := by
  simp only [FS.unlink, FS.exists, List.any_eq_false] at h ⊢
  intro x hx
  exact h x (List.mem_of_mem_filter hx)

theorem FS.read_write_self (fs : FS) (p c : String) :
    (fs.write p c).read p = some c := by
  simp [FS.write, FS.read, List.find?]

theorem FS.read_write_ne (fs : FS) (p q c : String) (h : p ≠ q) :
    (fs.write q c).read p = fs.read p := by
  have h1 : ((q, c).1 == p) = false := by simp [Ne.symm h]
  simp only [FS.write, FS.read, List.find?_cons, h1, find?_key_filter_ne _ _ _ h]

theorem filter_key_filter_self (l : List (String × String)) (k : String) :
    (l.filter (fun r => r.1 != k)).filter (fun r => r.1 == k) = [] := by
  rw [List.filter_eq_nil_iff]
  intro x hx
  have := List.mem_filter.mp hx
  simpa using this.2

theorem filter_key_filter_ne (l : List (String × String)) (k k' : String) (h : k ≠ k') :
    (l.filter (fun r => r.1 != k')).filter (fun r => r.1 == k) =
      l.filter (fun r => r.1 == k) := by
  induction l with
  | nil => rfl
  | cons x xs ih =>
    by_cases hxk : x.1 = k'
    · have hb : (x.1 != k') = false := by simp [hxk]
      have hp : (x.1 == k) = false := by simp [hxk, Ne.symm h]
      simp only [List.filter_cons, hb, Bool.false_eq_true, if_false, hp, ih]
    · have hb : (x.1 != k') = true := by simp [hxk]
      simp only [List.filter_cons, hb, if_true, ih]

theorem countHeader_setHeader_self (hs : List (String × String)) (k v : String) :
    countHeader (setHeader hs k v) k = 1 := by
  simp only [countHeader, setHeader, List.filter_append, filter_key_filter_self,
    List.nil_append]
  simp [List.filter_cons]

theorem countHeader_setHeader_ne (hs : List (String × String)) (k k' v : String)
    (h : k ≠ k') :
    countHeader (setHeader hs k' v) k = countHeader hs k := by
  simp only [countHeader, setHeader, List.filter_append, filter_key_filter_ne _ _ _ h]
  have hp : ((k', v).1 == k) = false := by simp [Ne.symm h]
  simp [List.filter_cons, hp]

theorem hasHeader_iff_countHeader_pos (hs : List (String × String)) (k : String) :
    hasHeader hs k = true ↔ 1 ≤ countHeader hs k := by
  constructor
  · intro h
    obtain ⟨x, hx, hpx⟩ := List.any_eq_true.mp h
    have : x ∈ hs.filter (fun r => r.1 == k) := List.mem_filter.mpr ⟨hx, hpx⟩
    have := List.length_pos.mpr (List.ne_nil_of_mem this)
    simpa [countHeader] using this
  · intro h
    have hne : hs.filter (fun r => r.1 == k) ≠ [] := by
      intro hc
      rw [countHeader, hc] at h
      simp at h
    obtain ⟨x, hx⟩ := List.exists_mem_of_ne_nil _ hne
    have := List.mem_filter.mp hx
    exact List.any_eq_true.mpr ⟨x, this.1, this.2⟩

theorem countACAO_pipeline (origin : Option String) (r : HttpResponse)
    (h : countHeader r.headers ACAO ≤ 1) :
    countACAO (afterRequestPipeline origin r) = 1 := by
  unfold afterRequestPipeline add_cors_headers
  cases hh : hasHeader r.headers ACAO
  · simp only [Bool.false_eq_true, if_false]
    have hACAOne1 : ACAO ≠ "Access-Control-Allow-Headers" := by decide
    have hACAOne2 : ACAO ≠ "Access-Control-Allow-Methods" := by decide
    have hcnt : countHeader
        (setHeader (setHeader (setHeader r.headers ACAO ALLOWED_ORIGIN)
          "Access-Control-Allow-Headers" "Content-Type")
          "Access-Control-Allow-Methods" "POST, GET, OPTIONS") ACAO = 1 := by
      rw [countHeader_setHeader_ne _ _ _ _ hACAOne2,
        countHeader_setHeader_ne _ _ _ _ hACAOne1,
        countHeader_setHeader_self]
    have hhas : hasHeader
        (setHeader (setHeader (setHeader r.headers ACAO ALLOWED_ORIGIN)
          "Access-Control-Allow-Headers" "Content-Type")
          "Access-Control-Allow-Methods" "POST, GET, OPTIONS") ACAO = true := by
      rw [hasHeader_iff_countHeader_pos, hcnt]
    unfold corsExtension
    simp only [hhas, if_true]
    exact hcnt
  · simp only [if_true]
    have h1 : 1 ≤ countHeader r.headers ACAO :=
      (hasHeader_iff_countHeader_pos _ _).mp hh
    unfold corsExtension
    simp only [hh, if_true]
    show countHeader r.headers ACAO = 1
    exact Nat.le_antisymm h h1

theorem process_inline_count_le (req : InlineRequest) (env : InlineEnv) :
    countHeader (process_inline req env).resp.headers ACAO ≤ 1 := by
  rcases req with ⟨hv, mf⟩
  cases hv
  · simp [process_inline, jsonResponse, countHeader]
  · cases hpm : pyIsalnum (Option.getD mf "cat")
    · simp [process_inline, hpm, jsonResponse, countHeader]
    · cases hxe : env.maskExists (maskPath (Option.getD mf "cat"))
      · simp [process_inline, hpm, hxe, jsonResponse, countHeader]
      · cases hst : env.stageResult with
        | err e => simp [process_inline, hpm, hxe, hst, jsonResponse, countHeader]
        | ok s =>
          cases hov : env.overlayResult with
          | err e => simp [process_inline, hpm, hxe, hst, hov, jsonResponse, countHeader]
          | ok s2 =>
            cases hfr : env.finalResult with
            | ok s3 =>
              simp [process_inline, hpm, hxe, hst, hov, hfr, countHeader, setHeader, ACAO]
            | err e3 =>
              simp [process_inline, hpm, hxe, hst, hov, hfr, countHeader, setHeader, ACAO]

theorem upload_count_le (env : UploadEnv) :
    countHeader (upload env).resp.headers ACAO ≤ 1 := by
  cases hv : env.hasVideo
  · simp [upload, hv, jsonResponse, countHeader]
  · cases hov : env.overlayResult with
    | ok s => simp [upload, hv, hov, jsonResponse, countHeader]
    | err e => simp [upload, hv, hov, jsonResponse, countHeader]

theorem inline_calls_nodup (a b m c d : String) :
    [stageCmd a b, overlayCmd b m c, finalizeCmd c d].Nodup := by
  simp [stageCmd, overlayCmd, finalizeCmd]

theorem uuidChar_props (c : Char) (h : uuidChar c = true) :
    filenameAsciiKeep c = true ∧ isStripChar c = false ∧
    (c == ' ') = false ∧ (c == '/') = false := by
  have hnotof : ∀ d : Char, uuidChar d = false → c ≠ d := by
    intro d hd hcd
    rw [hcd, hd] at h
    exact Bool.false_ne_true h
  have hsp : c ≠ ' ' := hnotof ' ' (by decide)
  have hsl : c ≠ '/' := hnotof '/' (by decide)
  have hdot : c ≠ '.' := hnotof '.' (by decide)
  have hus : c ≠ '_' := hnotof '_' (by decide)
  refine ⟨?_, ?_, ?_, ?_⟩
  · simp only [uuidChar, Bool.or_eq_true, Bool.and_eq_true, decide_eq_true_eq] at h
    rcases h with (hd | ⟨h1, h2⟩) | hh
    · simp [filenameAsciiKeep, Char.isAlphanum, hd]
    · have v1 : (97 : UInt32) ≤ c.val := Char.le_def.mp h1
      have v3 : c.val ≤ (122 : UInt32) :=
        UInt32.le_trans (Char.le_def.mp h2) (by decide)
      have : c.isLower = true := by
        simp only [Char.isLower]
        simp [v1, v3]
      simp [filenameAsciiKeep, Char.isAlphanum, Char.isAlpha, this]
    · have : c = '-' := by simpa using hh
      subst this
      decide
  · simp [isStripChar, hdot, hus]
  · simp [hsp]
  · simp [hsl]

theorem splitWsAux_no_space (l : List Char) :
    ∀ acc : List Char, (∀ c ∈ l, (c == ' ') = false) →
      (acc = [] → l ≠ []) → splitWsAux acc l = [acc.reverse ++ l] := by
  induction l with
  | nil =>
    intro acc _ hne
    have : acc ≠ [] := by
      intro hc
      exact (hne hc) rfl
    simp [splitWsAux, this]
  | cons c cs ih =>
    intro acc hsp _
    have hc : (c == ' ') = false := hsp c (List.mem_cons_self c cs)
    simp only [splitWsAux, hc, Bool.false_eq_true, if_false]
    rw [ih (c :: acc) (fun d hd => hsp d (List.mem_cons_of_mem c hd)) (by simp)]
    simp

theorem secure_filename_keep (s : String)
    (hk : ∀ c ∈ s.data, filenameAsciiKeep c = true)
    (hsp : ∀ c ∈ s.data, (c == ' ') = false ∧ (c == '/') = false)
    (hne : s.data ≠ [])
    (hhead : ∀ c, s.data.head? = some c → isStripChar c = false)
    (hlast : ∀ c, s.data.getLast? = some c → isStripChar c = false) :
    secure_filename s = s := by
  simp only [secure_filename]
  have hmap : s.data.map (fun c => if c == '/' then ' ' else c) = s.data := by
    rw [List.map_congr_left (g := id), List.map_id]
    intro a ha
    simp [(hsp a ha).2]
  rw [hmap]
  rw [splitWsAux_no_space s.data [] (fun c hc => (hsp c hc).1) (fun _ => hne)]
  simp only [List.reverse_nil, List.nil_append]
  have hjoin : joinUnderscore [s.data] = s.data := rfl
  rw [hjoin]
  rw [List.filter_eq_self.mpr hk]
  obtain ⟨a, as, hcons⟩ := List.exists_cons_of_ne_nil hne
  have hstripl : s.data.dropWhile isStripChar = s.data := by
    rw [hcons, List.dropWhile_cons]
    have : isStripChar a = false := by
      apply hhead
      rw [hcons]
      rfl
    simp [this]
  rw [hstripl]
  have hrevne : s.data.reverse ≠ [] := by
    simp [hcons]
  obtain ⟨b, bs, hrcons⟩ := List.exists_cons_of_ne_nil hrevne
  have hstripr : s.data.reverse.dropWhile isStripChar = s.data.reverse := by
    rw [hrcons, List.dropWhile_cons]
    have hb : s.data.getLast? = some b := by
      rw [← List.head?_reverse, hrcons]
      rfl
    have : isStripChar b = false := hlast b hb
    simp [this]
  rw [hstripr, List.reverse_reverse]

theorem uuidFormat_parts (u : String) (h : uuidFormat u = true) :
    u.data.length = 36 ∧ ∀ c ∈ u.data, uuidChar c = true := by
  simp only [uuidFormat, Bool.and_eq_true, List.all_eq_true, beq_iff_eq] at h
  exact ⟨h.1.1, h.1.2⟩

theorem webm_data (u : String) :
    (u ++ ".webm").data = u.data ++ ['.', 'w', 'e', 'b', 'm'] := by
  rw [String.data_append]

theorem secure_filename_uuid (u : String) (h : uuidFormat u = true) :
    secure_filename (u ++ ".webm") = u ++ ".webm" := by
  obtain ⟨hlen, hall⟩ := uuidFormat_parts u h
  have hne : u.data ≠ [] := by
    intro hc
    rw [hc] at hlen
    simp at hlen
  obtain ⟨a, as, hcons⟩ := List.exists_cons_of_ne_nil hne
  apply secure_filename_keep
  · intro c hc
    rw [webm_data] at hc
    rcases List.mem_append.mp hc with h1 | h2
    · exact (uuidChar_props c (hall c h1)).1
    · fin_cases h2 <;> decide
  · intro c hc
    rw [webm_data] at hc
    rcases List.mem_append.mp hc with h1 | h2
    · exact ⟨(uuidChar_props c (hall c h1)).2.2.1, (uuidChar_props c (hall c h1)).2.2.2⟩
    · fin_cases h2 <;> exact ⟨by decide, by decide⟩
  · rw [webm_data]
    simp
  · intro c hc
    rw [webm_data, hcons] at hc
    simp only [List.cons_append, List.head?_cons, Option.some.injEq] at hc
    subst hc
    exact (uuidChar_props a (hall a (by rw [hcons]; exact List.mem_cons_self a as))).2.1
  · intro c hc
    rw [webm_data, List.getLast?_append] at hc
    have hm : (['.', 'w', 'e', 'b', 'm'] : List Char).getLast? = some 'm' := by decide
    rw [hm] at hc
    have : some 'm' = some c := hc
    have hcm : c = 'm' := (Option.some.injEq _ _ ▸ this).symm
    subst hcm
    decide

theorem pathStem_uuid (u : String) (h : uuidFormat u = true) :
    pathStem (u ++ ".webm") = u := by
  obtain ⟨hlen, hall⟩ := uuidFormat_parts u h
  simp only [pathStem, webm_data]
  have hrev : (u.data ++ ['.', 'w', 'e', 'b', 'm']).reverse =
      ['m', 'b', 'e', 'w', '.'] ++ u.data.reverse := by
    rw [List.reverse_append]
    rfl
  have hidx : (['m', 'b', 'e', 'w', '.'] ++ u.data.reverse).findIdx?
      (fun c => c == '.') = some 4 := by
    simp [List.findIdx?]
  have hlen2 : (u.data ++ ['.', 'w', 'e', 'b', 'm']).length = 41 := by
    rw [List.length_append, hlen]
    rfl
  simp only [hrev, hidx]
  rw [hlen2]
  rw [if_neg (by omega : ¬ (41 - 1 - 4 : Nat) = 0)]
  have h36 : (41 : Nat) - 1 - 4 = u.data.length := by omega
  rw [h36, List.take_left]

/-- C1: the claimed invariant — every ephemeral artifact created during a
`/process-inline` request is deleted before the response on every path —
fails on the finalization-fallback path.  When staging and overlay succeed
but the finalization transcode exits non-zero, the handler responds 200 yet
the `mkstemp` file created for the finalized output (line 132 of `app.py`)
is still on disk, because `final_mp4` was rebound to `output_path` and the
cleanup guard on line 159 therefore skips it. -/
theorem finalize_fallback_leak :
    (process_inline sampleReq finalFailEnv).resp.status = 200 ∧
    (process_inline sampleReq finalFailEnv).fs = [("/tmp/d.mp4", "")] := by decide

/-- C2 counterexample: the finalization transcode is an external-tool
invocation that exits non-zero, yet `/process-inline` does not return 500
and the finalization temp file still exists after the response. -/
theorem finalize_failure_not_500 :
    finalFailEnv.finalResult = ToolResult.err "finalize diagnostics" ∧
    (process_inline sampleReq finalFailEnv).resp.status ≠ 500 ∧
    (process_inline sampleReq finalFailEnv).fs.exists "/tmp/d.mp4" = true := by decide

/-- C2 (amended): for the staging transcode or the overlay processor
exiting non-zero in `/process-inline`, the endpoint returns HTTP 500 and
every ephemeral file created up to that point no longer exists after the
response; a finalization-transcode failure is instead absorbed. -/
theorem tool_failure_cleanup (req : InlineRequest) (env : InlineEnv)
    (hv : req.hasVideo = true)
    (hm : pyIsalnum (req.maskField.getD "cat") = true)
    (hx : env.maskExists (maskPath (req.maskField.getD "cat")) = true) :
    (∀ e, env.stageResult = .err e →
      (process_inline req env).resp.status = 500 ∧
      (process_inline req env).fs.exists env.tmpIn = false ∧
      (process_inline req env).fs.exists env.tmpInterm = false) ∧
    (∀ s e, env.stageResult = .ok s → env.overlayResult = .err e →
      (process_inline req env).resp.status = 500 ∧
      (process_inline req env).fs.exists env.tmpIn = false ∧
      (process_inline req env).fs.exists env.tmpInterm = false ∧
      (process_inline req env).fs.exists env.tmpOut = false) := by
  constructor
  · intro e he
    simp only [process_inline, hv, hm, hx, he, Bool.not_true, Bool.false_eq_true, if_false]
    refine ⟨rfl, ?_, ?_⟩
    · exact FS.exists_unlink_of_not _ _ _ (FS.exists_unlink_self _ _)
    · exact FS.exists_unlink_self _ _
  · intro s e hs ho
    simp only [process_inline, hv, hm, hx, hs, ho, Bool.not_true, Bool.false_eq_true, if_false]
    refine ⟨rfl, ?_, ?_, ?_⟩
    · exact FS.exists_unlink_of_not _ _ _
        (FS.exists_unlink_of_not _ _ _ (FS.exists_unlink_self _ _))
    · exact FS.exists_unlink_of_not _ _ _ (FS.exists_unlink_self _ _)
    · exact FS.exists_unlink_self _ _

/-- Witness for C2 (amended): concrete staging-failure and overlay-failure
requests return 500 with all temp files gone. -/
theorem tool_failure_cleanup_w :
    ((process_inline sampleReq stageFailEnv).resp.status = 500 ∧
      (process_inline sampleReq stageFailEnv).fs.exists stageFailEnv.tmpIn = false ∧
      (process_inline sampleReq stageFailEnv).fs.exists stageFailEnv.tmpInterm = false) ∧
    ((process_inline sampleReq overlayFailEnv).resp.status = 500 ∧
      (process_inline sampleReq overlayFailEnv).fs.exists overlayFailEnv.tmpIn = false ∧
      (process_inline sampleReq overlayFailEnv).fs.exists overlayFailEnv.tmpInterm = false ∧
      (process_inline sampleReq overlayFailEnv).fs.exists overlayFailEnv.tmpOut = false) :=
  ⟨(tool_failure_cleanup sampleReq stageFailEnv rfl (by decide) (by decide)).1
      "staging diagnostics" rfl,
    (tool_failure_cleanup sampleReq overlayFailEnv rfl (by decide) (by decide)).2
      "" "overlay diagnostics" rfl rfl⟩

/-- C3: when the overlay processor succeeded but the finalization transcode
exits non-zero, `/process-inline` still returns HTTP 200 and the body is
the overlay step's un-finalized output bytes. -/
theorem finalize_fallback_serves_overlay (req : InlineRequest) (env : InlineEnv)
    (s t e : String)
    (hv : req.hasVideo = true)
    (hm : pyIsalnum (req.maskField.getD "cat") = true)
    (hx : env.maskExists (maskPath (req.maskField.getD "cat")) = true)
    (hs : env.stageResult = .ok s)
    (ho : env.overlayResult = .ok t)
    (hf : env.finalResult = .err e)
    (hne : env.tmpFinal ≠ env.tmpOut) :
    (process_inline req env).resp.status = 200 ∧
    (process_inline req env).resp.body = .video env.overlayOut := by
  simp only [process_inline, hv, hm, hx, hs, ho, hf, Bool.not_true, Bool.false_eq_true,
    if_false]
  refine ⟨trivial, ?_⟩
  rw [FS.read_write_ne _ _ _ _ (Ne.symm hne), FS.read_write_self]
  rfl

/-- Witness for C3: a concrete finalization failure yields 200 with the
overlay output bytes. -/
theorem finalize_fallback_serves_overlay_w :
    finalFailEnv.finalResult = ToolResult.err "finalize diagnostics" ∧
    ((process_inline sampleReq finalFailEnv).resp.status = 200 ∧
      (process_inline sampleReq finalFailEnv).resp.body = .video finalFailEnv.overlayOut) :=
  ⟨rfl, finalize_fallback_serves_overlay sampleReq finalFailEnv "" "" "finalize diagnostics"
    rfl (by decide) (by decide) rfl rfl rfl (by decide)⟩

/-- C4: a `/process-inline` request whose effective mask name fails the
alphanumeric check gets HTTP 400 and invokes no external tool at all. -/
theorem invalid_mask_rejected (req : InlineRequest) (env : InlineEnv)
    (h : pyIsalnum (req.maskField.getD "cat") = false) :
    (process_inline req env).resp.status = 400 ∧
    (process_inline req env).calls = [] := by
  rcases req with ⟨hv, mf⟩
  cases hv <;> simp [process_inline, jsonResponse, h]

/-- Witness for C4: the traversal attempt `"../evil"` is rejected with 400
and no subprocess runs. -/
theorem invalid_mask_rejected_w :
    pyIsalnum ((some "../evil").getD "cat") = false ∧
    (process_inline ⟨true, some "../evil"⟩ allOkEnv).resp.status = 400 ∧
    (process_inline ⟨true, some "../evil"⟩ allOkEnv).calls = [] :=
  ⟨by decide, invalid_mask_rejected ⟨true, some "../evil"⟩ allOkEnv (by decide)⟩

/-- C5: every mask identifier accepted by the alphanumeric check resolves
to a plain file name directly inside the fixed mask directory — no path
traversal is possible. -/
theorem mask_path_confined (name : String) (h : pyIsalnum name = true) :
    directlyInside (BASE_DIR ++ "/masks") (maskPath name) := by
  have hall : ∀ c ∈ name.data, c.isAlphanum = true := by
    simp only [pyIsalnum, Bool.and_eq_true, List.all_eq_true] at h
    exact h.2
  refine ⟨name ++ ".png", ?_, ?_, ?_, ?_, ?_⟩
  · simp only [maskPath]
    rw [show ("/masks/" : String) = "/masks" ++ "/" from by decide]
    simp only [String.append_assoc]
  · intro hc
    have hd := congrArg String.data hc
    rw [String.data_append] at hd
    simp at hd
  · intro c hc
    rw [String.data_append] at hc
    rcases List.mem_append.mp hc with h1 | h2
    · intro he
      have := hall c h1
      rw [he] at this
      exact absurd this (by decide)
    · have : c ∈ ['.', 'p', 'n', 'g'] := h2
      fin_cases this <;> decide
  · intro hc
    have hd := congrArg String.data hc
    rw [String.data_append] at hd
    have hl := congrArg List.length hd
    simp only [List.length_append] at hl
    have h4 : (".png" : String).data.length = 4 := rfl
    have h1 : ("." : String).data.length = 1 := rfl
    rw [h4] at hl
    rw [h1] at hl
    omega
  · intro hc
    have hd := congrArg String.data hc
    rw [String.data_append] at hd
    have hl := congrArg List.length hd
    simp only [List.length_append] at hl
    have h4 : (".png" : String).data.length = 4 := rfl
    have h2 : (".." : String).data.length = 2 := rfl
    rw [h4] at hl
    rw [h2] at hl
    omega

/-- Witness for C5: the accepted name `"cat"` resolves inside the mask
directory. -/
theorem mask_path_confined_w :
    pyIsalnum "cat" = true ∧ directlyInside (BASE_DIR ++ "/masks") (maskPath "cat") :=
  ⟨by decide, mask_path_confined "cat" (by decide)⟩

/-- C6: for a successful `/upload` with a UUID-shaped generated identifier,
the stored upload is `<id>.webm`, the response is
`{"processed_url": "/processed/<id>_mask.mp4"}`, the processed file with
that derived name exists, and the overlay invocation targets exactly those
paths. -/
theorem upload_url_from_uuid (env : UploadEnv) (s : String)
    (hu : uuidFormat env.uuid = true)
    (hv : env.hasVideo = true)
    (ho : env.overlayResult = .ok s) :
    (upload env).resp = jsonResponse 200
      [("processed_url", "/processed/" ++ (env.uuid ++ "_mask.mp4"))] ∧
    (upload env).fs.exists (PROCESSED_DIR ++ "/" ++ (env.uuid ++ "_mask.mp4")) = true ∧
    (upload env).fs.exists (UPLOAD_DIR ++ "/" ++ (env.uuid ++ ".webm")) = true ∧
    (upload env).calls = [overlayCmd (UPLOAD_DIR ++ "/" ++ (env.uuid ++ ".webm")) MASK_PATH
      (PROCESSED_DIR ++ "/" ++ (env.uuid ++ "_mask.mp4"))] := by
  simp only [upload, hv, Bool.not_true, Bool.false_eq_true, if_false,
    secure_filename_uuid _ hu, pathStem_uuid _ hu, ho]
  refine ⟨trivial, ?_, ?_, trivial⟩
  · exact FS.exists_write_self _ _ _
  · exact FS.exists_write_of _ _ _ _ (FS.exists_write_self _ _ _)

/-- Witness for C6: a concrete UUID-named upload returns the derived
processed URL. -/
theorem upload_url_from_uuid_w :
    uuidFormat sampleUploadEnv.uuid = true ∧
    (upload sampleUploadEnv).resp = jsonResponse 200
      [("processed_url", "/processed/" ++ (sampleUploadEnv.uuid ++ "_mask.mp4"))] :=
  ⟨by decide, (upload_url_from_uuid sampleUploadEnv "" (by decide) rfl rfl).1⟩

/-- C7: after the after-request hooks run, every response of every route —
both `/process-inline` and `/upload` outcomes, the index route, the OPTIONS
preflight handler, and the processed-file route — carries exactly one value
for `Access-Control-Allow-Origin`, for any request `Origin`. -/
theorem single_cors_origin_value (origin : Option String) (req : InlineRequest)
    (env : InlineEnv) (uenv : UploadEnv) (found : Bool) (content : String) :
    countACAO (afterRequestPipeline origin (process_inline req env).resp) = 1 ∧
    countACAO (afterRequestPipeline origin (upload uenv).resp) = 1 ∧
    countACAO (afterRequestPipeline origin index) = 1 ∧
    countACAO (afterRequestPipeline origin handle_options) = 1 ∧
    countACAO (afterRequestPipeline origin (processedRoute found content)) = 1 := by
  refine ⟨countACAO_pipeline _ _ (process_inline_count_le req env),
    countACAO_pipeline _ _ (upload_count_le uenv),
    countACAO_pipeline _ _ (by decide),
    countACAO_pipeline _ _ (by decide),
    countACAO_pipeline _ _ ?_⟩
  cases found <;> simp [processedRoute, countHeader]

/-- C8: no external-tool invocation is ever repeated in a request's trace,
and every tool failure surfaced to the client (HTTP 500) carries the failing
tool's captured stderr verbatim in the JSON `details` field. -/
theorem failures_verbatim_no_retry (req : InlineRequest) (env : InlineEnv)
    (uenv : UploadEnv) :
    ((process_inline req env).calls.Nodup ∧ (upload uenv).calls.Nodup) ∧
    ((process_inline req env).resp.status = 500 →
      ∃ s d, (process_inline req env).resp.body = Body.json [("error", s), ("details", d)] ∧
        (env.stageResult = .err d ∨ env.overlayResult = .err d)) ∧
    ((upload uenv).resp.status = 500 →
      ∃ d, (upload uenv).resp.body = Body.json [("error", "Processing failed"), ("details", d)] ∧
        uenv.overlayResult = .err d) := by
  rcases req with ⟨hv, mf⟩
  refine ⟨⟨?_, ?_⟩, ?_, ?_⟩
  · cases hv
    · simp [process_inline]
    · cases hpm : pyIsalnum (Option.getD mf "cat")
      · simp [process_inline, hpm]
      · cases hxe : env.maskExists (maskPath (Option.getD mf "cat"))
        · simp [process_inline, hpm, hxe]
        · cases hst : env.stageResult with
          | err e =>
            simp [process_inline, hpm, hxe, hst]
          | ok s =>
            cases hov : env.overlayResult with
            | err e =>
              simp only [process_inline, hpm, hxe, hst, hov, Bool.not_true,
                Bool.false_eq_true, if_false]
              simp [stageCmd, overlayCmd]
            | ok s2 =>
              cases hfr : env.finalResult with
              | ok s3 =>
                simp only [process_inline, hpm, hxe, hst, hov, hfr, Bool.not_true,
                  Bool.false_eq_true, if_false]
                exact inline_calls_nodup _ _ _ _ _
              | err e3 =>
                simp only [process_inline, hpm, hxe, hst, hov, hfr, Bool.not_true,
                  Bool.false_eq_true, if_false]
                exact inline_calls_nodup _ _ _ _ _
  · cases huv : uenv.hasVideo
    · simp [upload, huv]
    · cases huo : uenv.overlayResult with
      | ok s => simp [upload, huv, huo]
      | err e => simp [upload, huv, huo]
  · cases hv
    · intro h500; simp [process_inline, jsonResponse] at h500
    · cases hpm : pyIsalnum (Option.getD mf "cat")
      · intro h500; simp [process_inline, jsonResponse, hpm] at h500
      · cases hxe : env.maskExists (maskPath (Option.getD mf "cat"))
        · intro h500; simp [process_inline, jsonResponse, hpm, hxe] at h500
        · cases hst : env.stageResult with
          | err e =>
            intro _
            refine ⟨"Failed to convert WebM", e, ?_, Or.inl rfl⟩
            simp [process_inline, jsonResponse, hpm, hxe, hst]
          | ok s =>
            cases hov : env.overlayResult with
            | err e =>
              intro _
              refine ⟨"Processing failed", e, ?_, Or.inr rfl⟩
              simp [process_inline, jsonResponse, hpm, hxe, hst, hov]
            | ok s2 =>
              cases hfr : env.finalResult with
              | ok s3 =>
                intro h500
                simp [process_inline, jsonResponse, hpm, hxe, hst, hov, hfr] at h500
              | err e3 =>
                intro h500
                simp [process_inline, jsonResponse, hpm, hxe, hst, hov, hfr] at h500
  · cases huv : uenv.hasVideo
    · intro h500; simp [upload, jsonResponse, huv] at h500
    · cases huo : uenv.overlayResult with
      | ok s => intro h500; simp [upload, jsonResponse, huv, huo] at h500
      | err e =>
        intro _
        refine ⟨e, ?_, rfl⟩
        simp [upload, jsonResponse, huv, huo]

/-- Witness for C8: concrete staging and upload-overlay failures carry the
tools' stderr verbatim in the `details` field. -/
theorem failures_verbatim_no_retry_w :
    (∃ s d, (process_inline sampleReq stageFailEnv).resp.body =
        Body.json [("error", s), ("details", d)] ∧
      (stageFailEnv.stageResult = .err d ∨ stageFailEnv.overlayResult = .err d)) ∧
    (∃ d, (upload uploadFailEnv).resp.body =
        Body.json [("error", "Processing failed"), ("details", d)] ∧
      uploadFailEnv.overlayResult = .err d) :=
  ⟨(failures_verbatim_no_retry sampleReq stageFailEnv uploadFailEnv).2.1 (by decide),
    (failures_verbatim_no_retry sampleReq stageFailEnv uploadFailEnv).2.2 (by decide)⟩

/-- C9: `/upload` is insensitive to any client-supplied `mask` form field,
and every overlay invocation it performs passes the fixed default mask
`cat.png` as the mask argument. -/
theorem upload_ignores_mask_field (env : UploadEnv) (m : Option String) :
    upload { env with maskField := m } = upload env ∧
    ∀ inv ∈ (upload env).calls, inv.args.getD 2 "" = MASK_PATH := by
  constructor
  · rfl
  · intro inv hinv
    cases hv : env.hasVideo
    · simp [upload, hv] at hinv
    · cases hov : env.overlayResult with
      | ok s =>
        simp only [upload, hv, Bool.not_true, Bool.false_eq_true, if_false, hov] at hinv
        simp only [List.mem_singleton] at hinv
        subst hinv
        rfl
      | err e =>
        simp only [upload, hv, Bool.not_true, Bool.false_eq_true, if_false, hov] at hinv
        simp only [List.mem_singleton] at hinv
        subst hinv
        rfl

/-- Witness for C9: a concrete upload with a client-supplied mask field
behaves identically, and its overlay call uses `cat.png`. -/
theorem upload_ignores_mask_field_w :
    upload { sampleUploadEnv with maskField := some "dog" } = upload sampleUploadEnv ∧
    (overlayCmd (UPLOAD_DIR ++ "/" ++ (sampleUploadEnv.uuid ++ ".webm")) MASK_PATH
      (PROCESSED_DIR ++ "/" ++ (sampleUploadEnv.uuid ++ "_mask.mp4"))).args.getD 2 ""
      = MASK_PATH :=
  ⟨(upload_ignores_mask_field sampleUploadEnv (some "dog")).1,
    (upload_ignores_mask_field sampleUploadEnv (some "dog")).2 _ (by decide)⟩

/-- C10: a `/process-inline` request whose `mask` form field is present but
empty is rejected with 400 "Invalid mask name"; the default mask name `cat`
takes effect only when the field is entirely absent, in which case the
handler behaves exactly as if `mask=cat` had been sent. -/
theorem empty_mask_field_rejected (req : InlineRequest) (env : InlineEnv)
    (hv : req.hasVideo = true) (hm : req.maskField = some "") :
    ((process_inline req env).resp =
        jsonResponse 400 [("error", "Invalid mask name")] ∧
      (process_inline req env).calls = []) ∧
    (∀ (e2 : InlineEnv) (b : Bool),
      process_inline ⟨b, none⟩ e2 = process_inline ⟨b, some "cat"⟩ e2) := by
  constructor
  · rcases req with ⟨_, _⟩
    cases hv; cases hm
    simp [process_inline, pyIsalnum]
  · intro e2 b
    rfl

/-- Witness for C10: a concrete empty-mask request is rejected and the
absent-field request equals the `mask=cat` request. -/
theorem empty_mask_field_rejected_w :
    ((process_inline ⟨true, some ""⟩ allOkEnv).resp =
        jsonResponse 400 [("error", "Invalid mask name")] ∧
      (process_inline ⟨true, some ""⟩ allOkEnv).calls = []) ∧
    process_inline ⟨true, none⟩ allOkEnv = process_inline ⟨true, some "cat"⟩ allOkEnv :=
  ⟨(empty_mask_field_rejected ⟨true, some ""⟩ allOkEnv rfl rfl).1,
    (empty_mask_field_rejected ⟨true, some ""⟩ allOkEnv rfl rfl).2 allOkEnv true⟩

end FaceFilter
